import Mathlib

/-!
Verification of the arithmetic shim in `src/examples/Rust/rust-lib/lib.rs`.

The source is a freestanding (`no_std`, `no_main`) module with two items:

* `rust_add(a: i32, b: i32) -> i32`, whose body is `a + b`, exported
  with `#[no_mangle] pub extern "C"`; with overflow checking absent the
  addition wraps modulo 2^32 in two's-complement fashion;
* a `#[panic_handler]` function `panic(_info) -> !` whose body is an
  empty infinite loop.

We embed 32-bit signed integers as `Int` values in the interval
`[-2^31, 2^31)` and the wrapping addition as reduction modulo `2^32`
recentred onto that interval.  The panic handler is embedded as a
small-step transition system over an arbitrary world type, so that both
non-return and absence of side effects are provable statements.
-/

/-- Representability predicate: `x` lies in the 32-bit signed range
`[-2^31, 2^31)`. -/
def isI32 (x : Int) : Prop := -(2 ^ 31) ≤ x ∧ x < 2 ^ 31

instance (x : Int) : Decidable (isI32 x) :=
  inferInstanceAs (Decidable (-(2 ^ 31) ≤ x ∧ x < 2 ^ 31))

/-- Two's-complement wraparound of an integer into the signed 32-bit
range: reduce modulo `2^32`, recentred onto `[-2^31, 2^31)`. -/
def wrap32 (x : Int) : Int := (x + 2 ^ 31) % 2 ^ 32 - 2 ^ 31

/-- Embedding of `rust_add` from `src/examples/Rust/rust-lib/lib.rs`:
the body is `a + b` on `i32`; without overflow checking the machine
addition is the two's-complement wraparound sum. -/
def rust_add (a b : Int) : Int := wrap32 (a + b)

/-- Spec-side view: reinterpret a signed 32-bit value as its unsigned
32-bit representative (the bit pattern read as an unsigned number). -/
def toUnsigned32 (x : Int) : Int := x % 2 ^ 32

/-- Spec-side view: reinterpret an unsigned 32-bit value (in
`[0, 2^32)`) as a signed 32-bit value. -/
def toSigned32 (u : Int) : Int := if u < 2 ^ 31 then u else u - 2 ^ 32

/-- Spec-side definition, written from the spec's words: "(a + b) mod
2^32 reinterpreted as a signed 32-bit value". -/
def specWrapSum (a b : Int) : Int :=
  toSigned32 ((toUnsigned32 a + toUnsigned32 b) % 2 ^ 32)

/-- World-indexed small step of the panic handler's body, the empty
infinite loop: from world `w` the loop takes one iteration, leaving the
world untouched (`Sum.inl` = still looping); `Sum.inr` would signal a
return from the handler, which the body never performs. -/
def panicStep (W : Type) (w : W) : W ⊕ Unit := Sum.inl w

/-- Run the panic handler for `n` steps from world `w`: either it is
still looping (`Sum.inl` with the current world) or it has returned
(`Sum.inr`). -/
def panicRun (W : Type) : Nat → W → W ⊕ Unit
  | 0, w => Sum.inl w
  | n + 1, w =>
    match panicStep W w with
    | Sum.inl w2 => panicRun W n w2
    | Sum.inr r => Sum.inr r

/-- State-passing embedding of `rust_add`: the body `a + b` reads and
writes no state, so every world `w` passes through unchanged alongside
the arithmetic result. -/
def rust_add_st (W : Type) (w : W) (a b : Int) : W × Int :=
  (w, rust_add a b)

/-- C1: for every pair of representable 32-bit signed integers, the
embedded `rust_add` agrees with the spec's wraparound sum, "(a + b) mod
2^32 reinterpreted as a signed 32-bit value". -/
theorem rust_add_matches_spec (a b : Int) (ha : isI32 a) (hb : isI32 b) :
    rust_add a b = specWrapSum a b := by
  unfold isI32 at ha hb
  unfold rust_add wrap32 specWrapSum toSigned32 toUnsigned32
  split <;> omega

/-- Witness for C1 at `a = 2`, `b = 3`. -/
theorem rust_add_matches_spec_witness :
    rust_add 2 3 = specWrapSum 2 3 :=
  rust_add_matches_spec 2 3 (by decide) (by decide)

/-- C2: `rust_add` signals no error on any representable input pair:
the result is itself a representable 32-bit signed integer, and it is
congruent to the exact sum modulo 2^32 (silent wraparound, no trap). -/
theorem rust_add_total_no_error (a b : Int) (ha : isI32 a) (hb : isI32 b) :
    isI32 (rust_add a b) ∧ rust_add a b % 2 ^ 32 = (a + b) % 2 ^ 32 := by
  unfold isI32 at ha hb ⊢
  unfold rust_add wrap32
  omega

/-- Witness for C2 at `a = -1`, `b = 1`. -/
theorem rust_add_total_no_error_witness :
    isI32 (rust_add (-1) 1) ∧
      rust_add (-1) 1 % 2 ^ 32 = ((-1 : Int) + 1) % 2 ^ 32 :=
  rust_add_total_no_error (-1) 1 (by decide) (by decide)

/-- C3: overflow at the top of the `i32` range wraps silently:
`rust_add 2147483647 1 = -2147483648`. -/
theorem rust_add_overflow_wraps :
    rust_add 2147483647 1 = -2147483648 := by decide

/-- C4: the panic handler never returns and has no side effect: after
any number of loop iterations, from any world, it is still looping and
the world is unchanged. -/
theorem panic_never_returns (W : Type) (n : Nat) (w : W) :
    panicRun W n w = Sum.inl w := by
  induction n with
  | zero => rfl
  | succ n ih => simpa [panicRun, panicStep] using ih

/-- C5: commutativity of the wrapping addition: for all integers,
`rust_add a b = rust_add b a`. -/
theorem rust_add_comm (a b : Int) : rust_add a b = rust_add b a := by
  unfold rust_add
  rw [Int.add_comm]

/-- C6: zero is a right identity on the representable range:
`rust_add a 0 = a` for every 32-bit signed integer `a`. -/
theorem rust_add_zero (a : Int) (ha : isI32 a) : rust_add a 0 = a := by
  unfold isI32 at ha
  unfold rust_add wrap32
  omega

/-- Witness for C6 at `a = 7`. -/
theorem rust_add_zero_witness : rust_add 7 0 = 7 :=
  rust_add_zero 7 (by decide)

/-- C7: negative operands: `rust_add (-5) (-7) = -12`. -/
theorem rust_add_neg_example : rust_add (-5) (-7) = -12 := by decide

/-- C8: `rust_add` is pure and deterministic: in the state-passing
embedding, equal arguments yield equal results irrespective of the
world, and the world is returned unchanged. -/
theorem rust_add_pure_deterministic (W : Type) (w w2 : W)
    (a b a2 b2 : Int) (ha : a = a2) (hb : b = b2) :
    (rust_add_st W w a b).2 = (rust_add_st W w2 a2 b2).2 ∧
      (rust_add_st W w a b).1 = w := by
  subst ha
  subst hb
  exact ⟨rfl, rfl⟩

/-- Witness for C8 with worlds `0` and `5` over `Int` and arguments
`1`, `2`. -/
theorem rust_add_pure_deterministic_witness :
    (rust_add_st Int 0 1 2).2 = (rust_add_st Int 5 1 2).2 ∧
      (rust_add_st Int 0 1 2).1 = 0 :=
  rust_add_pure_deterministic Int 0 5 1 2 1 2 rfl rfl

/-- C10: associativity of the wrapping addition: for all integers,
`rust_add (rust_add a b) c = rust_add a (rust_add b c)`. -/
theorem rust_add_assoc (a b c : Int) :
    rust_add (rust_add a b) c = rust_add a (rust_add b c) := by
  unfold rust_add wrap32
  omega
